import Mathlib

/-!
Formal model of the no-OS SD-card SPI driver (`drivers/sd-card/sd.c`).

The driver talks to the card through one external primitive,
`spi_write_and_read(desc, buf, n)`, which transmits `buf[0..n)` and overwrites
it with the bytes received in the same clock slots.  We model that pipe as a
function from wire position to the received byte (or a transport error), and
the driver state as the session descriptor plus the transcript of transmitted
buffers.  Every C function of the protocol path is translated one to one;
machine integers are `Nat` with explicit reductions modulo 2^64 / 2^32 / 2^8
exactly where the C types wrap, and the pervasive
`if (NO_OS_SUCCESS != f(...)) return NO_OS_FAILURE;` idiom is rendered by the
early-return combinator `bindR`.
-/

set_option maxRecDepth 2000

namespace SD

/-- A byte pipe: for each wire position, the byte the card puts on the bus at
that position, or `none` when the transport fails on the exchange covering it.
This models the external `spi_write_and_read` collaborator of `sd.c`. -/
def Pipe : Type := Nat → Option Nat

/-- Session descriptor, `struct sd_desc`: a non-owned reference to the SPI
descriptor (an opaque identifier here), the capacity in bytes discovered at
init, and the small staging buffer `buff` (18 bytes, enough for `CSD_LEN`). -/
structure Desc where
  spi_id : Nat
  memory_size : Nat
  buff : List Nat
deriving DecidableEq, Repr

/-- Wire-visible driver state: the descriptor, the current wire position, and
the transcript of transmitted buffers, one entry per `spi_write_and_read`
call. -/
structure St where
  desc : Desc
  pos : Nat
  tx : List (List Nat)
deriving DecidableEq, Repr

/-- The C early-return idiom: if the first step failed, propagate the failure
(and the state it left behind); otherwise continue. -/
def bindR {α β : Type} (p : St × Option α) (k : St → α → St × Option β) :
    St × Option β :=
  match p with
  | (s1, none) => (s1, none)
  | (s1, some x) => k s1 x

/-- Observation of a fallible step's result outside the state-passing chain:
`d` when the step failed, `k` on its state and value otherwise.  Used to model
the contents a C function leaves in a caller-owned buffer on each of its
paths. -/
def caseR {α β : Type} (p : St × Option α) (d : β) (k : St → α → β) : β :=
  match p with
  | (_, none) => d
  | (s1, some x) => k s1 x

/-- One `spi_write_and_read` call: transmit `out` and receive, in place, the
bytes the pipe holds at the covered positions (masked to octets, as the bus
carries bytes into a `uint8_t` buffer).  The call fails when the pipe reports
a transport error at any covered position; the attempted transmission is
recorded either way. -/
def spi_wr (pipe : Pipe) (s : St) (out : List Nat) : St × Option (List Nat) :=
  if ((List.range out.length).map fun i => pipe (s.pos + i)).all Option.isSome then
    ({ s with pos := s.pos + out.length, tx := s.tx ++ [out] },
      some (((List.range out.length).map fun i => pipe (s.pos + i)).map fun o => o.getD 0 % 256))
  else
    ({ s with pos := s.pos + out.length, tx := s.tx ++ [out] }, none)

/-- Store `p` at the start of the descriptor's staging buffer `buff`. -/
def set_buff (s : St) (p : List Nat) : St :=
  { s with desc := { s.desc with buff := p ++ s.desc.buff.drop p.length } }

/-- An exchange staged in `sd_desc->buff`: the driver writes `out` into `buff`,
exchanges it, and the received bytes land back in `buff`. -/
def spi_wr_buff (pipe : Pipe) (s : St) (out : List Nat) : St × Option (List Nat) :=
  bindR (spi_wr pipe (set_buff s out) out) fun s1 rx => (set_buff s1 rx, some rx)

/-- `WAIT_RESP_TIMEOUT` from sd.c (0x1FFFFFF = 2^25 - 1). -/
def WAIT_RESP_TIMEOUT : Nat := 0x1FFFFFF

/-- The loop of `wait_for_response`, indexed by the current value of the
`timeout` counter: exchange one idle byte; on transport failure fail; when the
counter hits zero fail (the code checks `timeout-- == 0` after the exchange,
before retesting the received byte); otherwise succeed on the first byte that
differs from 0xFF. -/
def waitRespGo (pipe : Pipe) : Nat → St → St × Option Nat
  | 0, s => ((spi_wr pipe s [0xFF]).1, none)
  | t + 1, s =>
    bindR (spi_wr pipe s [0xFF]) fun s1 rx =>
      if rx.getD 0 0 = 0xFF then waitRespGo pipe t s1
      else (s1, some (rx.getD 0 0))

/-- `wait_for_response`: poll until a received byte differs from 0xFF. -/
def wait_for_response (pipe : Pipe) (s : St) : St × Option Nat :=
  waitRespGo pipe WAIT_RESP_TIMEOUT s

/-- The loop of `wait_until_not_busy`, same shape as `waitRespGo` but waiting
for the first byte that differs from 0x00 (the card releasing busy). -/
def waitBusyGo (pipe : Pipe) : Nat → St → St × Option Nat
  | 0, s => ((spi_wr pipe s [0xFF]).1, none)
  | t + 1, s =>
    bindR (spi_wr pipe s [0xFF]) fun s1 rx =>
      if rx.getD 0 0 = 0x00 then waitBusyGo pipe t s1
      else (s1, some (rx.getD 0 0))

/-- `wait_until_not_busy`: poll until a received byte differs from 0x00. -/
def wait_until_not_busy (pipe : Pipe) (s : St) : St × Option Nat :=
  waitBusyGo pipe WAIT_RESP_TIMEOUT s

/-- The `CMD_LEN = 8` byte buffer `send_command` stages in `buff`:
`memset(buff, 0xFF, 8)`, then `buff[1] = cmd & ~BIT_APPLICATION_CMD` (a
`uint8_t` store, hence the reduction mod 256), `buff[2..5] = arg` big-endian,
and `buff[6]` the CRC for CMD0 (64) and CMD8 (72), left 0xFF otherwise.
Note the frame proper occupies bytes 1..6; bytes 0 and 7 stay 0xFF. -/
def mk_frame (cmd arg : Nat) : List Nat :=
  [0xFF, (cmd % 256) &&& 0x7F,
   (arg >>> 24) % 256, (arg >>> 16) % 256, (arg >>> 8) % 256, arg % 256,
   (if cmd = 64 then 0x95 else if cmd = 72 then 0x87 else 0xFF), 0xFF]

/-- The non-ACMD body of `send_command`: stage and exchange the 8-byte command
buffer, wait for the first response byte, then exchange `response_len - 1`
further idle bytes for the remainder of the response. -/
def send_command_core (pipe : Pipe) (s : St) (cmd arg rlen : Nat) :
    St × Option (List Nat) :=
  bindR (spi_wr_buff pipe s (mk_frame cmd arg)) fun s1 _ =>
    bindR (wait_for_response pipe s1) fun s2 r0 =>
      if rlen - 1 > 0 then
        bindR (spi_wr pipe s2 (List.replicate (rlen - 1) 0xFF)) fun s3 rest =>
          (s3, some (r0 :: rest))
      else (s2, some [r0])

/-- `send_command`: when `cmd` carries `BIT_APPLICATION_CMD` (0x80), first run
a CMD55 (119) with stuff argument and require its R1 to be the idle state
(0x01); then run the actual command. -/
def send_command (pipe : Pipe) (s : St) (cmd arg rlen : Nat) :
    St × Option (List Nat) :=
  if cmd &&& 0x80 ≠ 0 then
    bindR (send_command_core pipe s 119 0 1) fun s1 r55 =>
      if r55.getD 0 0 = 0x01 then send_command_core pipe s1 cmd arg rlen
      else (s1, none)
  else send_command_core pipe s cmd arg rlen

/-- 64-bit wrap-around subtraction, as on `uint64_t`: `x - y` when it does not
borrow, otherwise wrapped by 2^64. -/
def sub64 (x y : Nat) : Nat :=
  if y % 2 ^ 64 ≤ x % 2 ^ 64 then x % 2 ^ 64 - y % 2 ^ 64
  else 2 ^ 64 - (y % 2 ^ 64 - x % 2 ^ 64)

/-- `get_nb_of_blocks`: `((address + len - 1) >> 9) - (address >> 9) + 1`, all
on `uint64_t`, with the result truncated to `uint32_t`. -/
def get_nb_of_blocks (address len : Nat) : Nat :=
  ((sub64 (sub64 (address + len) 1 >>> 9) ((address % 2 ^ 64) >>> 9) + 1) % 2 ^ 64) % 2 ^ 32

/-- `read_block`: wait for a token; a zero high nibble is a data-error token,
anything other than the start token 0xFE is a protocol error; then exchange
512 idle bytes (the destination was `memset` to 0xFF) and two CRC bytes
staged in `buff`. -/
def read_block (pipe : Pipe) (s : St) : St × Option (List Nat) :=
  bindR (wait_for_response pipe s) fun s1 tok =>
    if tok &&& 0xF0 = 0 then (s1, none)
    else if tok ≠ 0xFE then (s1, none)
    else
      bindR (spi_wr pipe s1 (List.replicate 512 0xFF)) fun s2 blk =>
        bindR (spi_wr_buff pipe s2 [0xFF, 0xFF]) fun s3 _ => (s3, some blk)

/-- The contents `read_block` leaves in its caller-owned destination buffer,
on every path: untouched (`prior`) until the start token 0xFE is accepted;
from then on the `memset` fill of 0xFF (sd.c:288), overwritten by the received
bytes when the 512-byte exchange delivers them (sd.c:289) — also when the
subsequent CRC exchange fails, since that failure comes after the data landed.
On a transport failure of the 512-byte exchange itself the C leaves the buffer
unspecified; the model keeps the 0xFF fill there. -/
def read_block_dest (pipe : Pipe) (s : St) (prior : List Nat) : List Nat :=
  caseR (wait_for_response pipe s) prior fun s1 tok =>
    if tok &&& 0xF0 = 0 then prior
    else if tok ≠ 0xFE then prior
    else
      caseR (spi_wr pipe s1 (List.replicate 512 0xFF)) (List.replicate 512 0xFF)
        fun _ blk => blk

/-- `write_block`: send the start token (0xFE single-block, 0xFC multi-block)
staged in `buff`, the 512 payload bytes, two filler CRC bytes; read the data
response token and accept only `(resp & 0x0E) == 0x04`; then busy-wait. -/
def write_block (pipe : Pipe) (s : St) (data : List Nat) (nb : Nat) :
    St × Option Unit :=
  bindR (spi_wr_buff pipe s [if nb = 1 then 0xFE else 0xFC]) fun s1 _ =>
    bindR (spi_wr pipe s1 data) fun s2 _ =>
      bindR (spi_wr_buff pipe s2 [0xFF, 0xFF]) fun s3 _ =>
        bindR (wait_for_response pipe s3) fun s4 resp =>
          if resp &&& 0x0E = 0x4 then
            bindR (wait_until_not_busy pipe s4) fun s5 _ => (s5, some ())
          else (s4, none)

/-- `(l.drop start).take n`: the slice `l[start .. start+n)`. -/
def slice (l : List Nat) (start n : Nat) : List Nat := (l.drop start).take n

/-- `memcpy(base + start, repl, |repl|)` on a list. -/
def splice (base : List Nat) (start : Nat) (repl : List Nat) : List Nat :=
  base.take start ++ repl ++ base.drop (start + repl.length)

/-- `buff_first_idx` of iteration `i`: nonzero only for the first block. -/
def bfi (a i : Nat) : Nat := if i = 0 then a % 512 else 0

/-- `buff_copy_len` of iteration `i`: shortened only for the last block.  The
C computes `((addr + len - 1) & 511) - buff_first_idx + 1` in `int`; it is
rendered here as `tail + 1 - first`, which agrees on every reachable case. -/
def bcl (a l nb i : Nat) : Nat :=
  if i = nb - 1 then sub64 (a + l) 1 % 512 + 1 - bfi a i else 512 - bfi a i

/-- The loop of `read_multiple_blocks`: for each of the `nb` blocks, full
blocks are read straight into the output, partial ones through a scratch
block from which the relevant slice is copied. -/
def rmb_go (pipe : Pipe) (a l nb : Nat) : Nat → Nat → List Nat → St →
    St × Option (List Nat)
  | _, 0, acc, s => (s, some acc)
  | i, r + 1, acc, s =>
    bindR (read_block pipe s) fun s1 blk =>
      if bfi a i = 0 ∧ bcl a l nb i = 512 then
        rmb_go pipe a l nb (i + 1) r (acc ++ blk) s1
      else rmb_go pipe a l nb (i + 1) r (acc ++ slice blk (bfi a i) (bcl a l nb i)) s1

/-- `read_multiple_blocks`. -/
def read_multiple_blocks (pipe : Pipe) (s : St) (a l : Nat) :
    St × Option (List Nat) :=
  rmb_go pipe a l (get_nb_of_blocks a l) 0 (get_nb_of_blocks a l) [] s

/-- The loop of `write_multiple_blocks`: full blocks are written straight from
the caller's data; a partial first block is patched into the scratch
`first_block`, a partial non-first (hence last) block into `last_block`. -/
def wmb_go (pipe : Pipe) (a l nb : Nat) (data fb lb : List Nat) :
    Nat → Nat → Nat → St → St × Option Unit
  | _, 0, _, s => (s, some ())
  | i, r + 1, didx, s =>
    if bfi a i = 0 ∧ bcl a l nb i = 512 then
      bindR (write_block pipe s (slice data didx 512) nb) fun s1 _ =>
        wmb_go pipe a l nb data fb lb (i + 1) r (didx + bcl a l nb i) s1
    else if i = 0 then
      bindR (write_block pipe s (splice fb (bfi a i) (slice data didx (bcl a l nb i))) nb)
        fun s1 _ => wmb_go pipe a l nb data fb lb (i + 1) r (didx + bcl a l nb i) s1
    else
      bindR (write_block pipe s (splice lb 0 (slice data didx (bcl a l nb i))) nb)
        fun s1 _ => wmb_go pipe a l nb data fb lb (i + 1) r (didx + bcl a l nb i) s1

/-- `write_multiple_blocks`. -/
def write_multiple_blocks (pipe : Pipe) (s : St) (data : List Nat) (a l : Nat)
    (fb lb : List Nat) : St × Option Unit :=
  wmb_go pipe a l (get_nb_of_blocks a l) data fb lb 0 (get_nb_of_blocks a l) 0 s

/-- The shared pre-flight check of `sd_read`/`sd_write`: `data == NULL`
(modelled by the `dataValid` flag), `address > memory_size`,
`len > memory_size`, or `address + len > memory_size` (the sum wraps on
`uint64_t`). -/
def sd_checks_fail (dataValid : Bool) (ms address len : Nat) : Bool :=
  !dataValid || decide (ms < address) || decide (ms < len)
    || decide (ms < (address + len) % 2 ^ 64)

/-- `sd_read`: pre-flight checks; CMD17 (81) for a single block, CMD18 (82)
otherwise, with the 32-bit argument `address >> 9`; require R1 ready (0x00);
read the blocks; after a multi-block read send CMD12 (76) and require R1
ready. -/
def sd_read (pipe : Pipe) (s : St) (dataValid : Bool) (address len : Nat) :
    St × Option (List Nat) :=
  if sd_checks_fail dataValid s.desc.memory_size address len then (s, none)
  else
    bindR (send_command pipe s (if get_nb_of_blocks address len = 1 then 81 else 82)
        ((address >>> 9) % 2 ^ 32) 1) fun s1 resp =>
      if resp.getD 0 0 ≠ 0 then (s1, none)
      else
        bindR (read_multiple_blocks pipe s1 address len) fun s2 dat =>
          if get_nb_of_blocks address len ≠ 1 then
            bindR (send_command pipe s2 76 0 1) fun s3 r12 =>
              if r12.getD 0 0 ≠ 0 then (s3, none) else (s3, some dat)
          else (s2, some dat)

/-- The first preliminary-read condition of `sd_write`:
`(address & 511) != 0 || ((address & 511) == 0 && len < 512)`. -/
def head_read_needed (a l : Nat) : Bool :=
  decide (a % 512 ≠ 0) || (decide (a % 512 = 0) && decide (l < 512))

/-- `address & MASK_BLOCK_NUMBER`, i.e. `a & ~511`, which for `a < 2^64` is
`a - a % 512`. -/
def head_base (a : Nat) : Nat := a - a % 512

/-- `(address + len - 1) & MASK_BLOCK_NUMBER` with the `uint64_t` wrap of the
inner subtraction. -/
def tail_base (a l : Nat) : Nat := sub64 (a + l) 1 - sub64 (a + l) 1 % 512

/-- The second preliminary-read condition of `sd_write`: the last block
differs from the first and the write does not reach the end of that block. -/
def tail_read_needed (a l : Nat) : Bool :=
  decide (tail_base a l ≠ head_base a) && decide (sub64 (a + l) 1 % 512 ≠ 511)

/-- The contents a preliminary `sd_read(scratch, b, 512)` of `sd_write` leaves
in the scratch block, on every path.  The preliminary reads always target a
single aligned block (`b` is `address & ~511` or `(address+len-1) & ~511`),
for which `get_nb_of_blocks b 512 = 1` and `read_multiple_blocks` performs
exactly one full-block `read_block` straight into the scratch; this definition
follows that call shape of sd.c's `sd_read`: the scratch is untouched when the
pre-flight check, the command, or its R1 fail, and otherwise holds whatever
`read_block` left — also when `read_block` (and with it the whole `sd_read`)
failed after accepting the start token. -/
def preread_dest (pipe : Pipe) (s : St) (b : Nat) (prior : List Nat) :
    List Nat :=
  if sd_checks_fail true s.desc.memory_size b 512 then prior
  else
    caseR (send_command pipe s (if get_nb_of_blocks b 512 = 1 then 81 else 82)
        ((b >>> 9) % 2 ^ 32) 1) prior fun s1 resp =>
      if resp.getD 0 0 ≠ 0 then prior
      else read_block_dest pipe s1 prior

/-- The head preliminary read of `sd_write`: when needed, `sd_read` the first
spanned block into `first_block`; the result code of that read is dropped, and
the scratch holds whatever the read attempt left in it (`preread_dest`),
starting from its previous uninitialized content `fb0`. -/
def sd_write_pre1 (pipe : Pipe) (s : St) (a l : Nat) (fb0 : List Nat) :
    St × List Nat :=
  if head_read_needed a l then
    ((sd_read pipe s true (head_base a) 512).1,
     preread_dest pipe s (head_base a) fb0)
  else (s, fb0)

/-- The tail preliminary read of `sd_write`, same discipline as
`sd_write_pre1`. -/
def sd_write_pre2 (pipe : Pipe) (s1 : St) (a l : Nat) (lb0 : List Nat) :
    St × List Nat :=
  if tail_read_needed a l then
    ((sd_read pipe s1 true (tail_base a l) 512).1,
     preread_dest pipe s1 (tail_base a l) lb0)
  else (s1, lb0)

/-- Both preliminary reads of `sd_write`, in source order, returning the state
after them and the contents of the two scratch blocks. -/
def sd_write_pre (pipe : Pipe) (s : St) (a l : Nat) (fb0 lb0 : List Nat) :
    St × List Nat × List Nat :=
  ((sd_write_pre2 pipe (sd_write_pre1 pipe s a l fb0).1 a l lb0).1,
   (sd_write_pre1 pipe s a l fb0).2,
   (sd_write_pre2 pipe (sd_write_pre1 pipe s a l fb0).1 a l lb0).2)

/-- `sd_write`: pre-flight checks; the two preliminary reads; CMD24 (88) for a
single block, CMD25 (89) otherwise, argument `address >> 9`, R1 must be ready;
write the blocks; after a multi-block write send the stop token 0xFD plus one
idle byte staged in `buff`, then busy-wait.  `fb0`/`lb0` are the initial
(uninitialized stack) contents of the two scratch blocks. -/
def sd_write (pipe : Pipe) (s : St) (dataValid : Bool) (data : List Nat)
    (address len : Nat) (fb0 lb0 : List Nat) : St × Option Unit :=
  if sd_checks_fail dataValid s.desc.memory_size address len then (s, none)
  else
    bindR (send_command pipe (sd_write_pre pipe s address len fb0 lb0).1
        (if get_nb_of_blocks address len = 1 then 88 else 89)
        ((address >>> 9) % 2 ^ 32) 1) fun s3 resp =>
      if resp.getD 0 0 ≠ 0 then (s3, none)
      else
        bindR (write_multiple_blocks pipe s3 data address len
            (sd_write_pre pipe s address len fb0 lb0).2.1
            (sd_write_pre pipe s address len fb0 lb0).2.2) fun s4 _ =>
          if get_nb_of_blocks address len ≠ 1 then
            bindR (spi_wr_buff pipe s4 [0xFD, 0xFF]) fun s5 _ =>
              bindR (wait_until_not_busy pipe s5) fun s6 _ => (s6, some ())
          else (s4, some ())

/-- The CMD0 retry loop of `sd_init`, counting remaining attempts
(`CMD0_RETRY_NUMBER = 5`): fail unless some attempt answers R1 idle (0x01). -/
def cmd0_loop (pipe : Pipe) : Nat → St → St × Option Unit
  | 0, s => (s, none)
  | n + 1, s =>
    bindR (send_command pipe s 64 0 1) fun s1 r =>
      if r.getD 0 0 = 0x01 then (s1, some ())
      else
        match n with
        | 0 => (s1, none)
        | _ + 1 => cmd0_loop pipe n s1

/-- The ACMD41 loop of `sd_init`: argument 0x40000000 on the first attempt and
0 afterwards, until R1 is ready (0x00).  The C loop is unbounded; `fuel`
indexes how many attempts we observe, so running out of fuel models the loop
still spinning. -/
def acmd41_loop (pipe : Pipe) : Nat → Nat → St → St × Option Unit
  | 0, _, s => (s, none)
  | f + 1, arg, s =>
    bindR (send_command pipe s 233 arg 1) fun s1 r =>
      if r.getD 0 0 = 0 then (s1, some ())
      else acmd41_loop pipe f 0 s1

/-- The CSD read step of `sd_init` (sd.c lines 591..606): send CMD9 (73) with
an R1 response — which the code reads but never tests — then wait for the next
non-idle byte, require it to be the start token 0xFE, and exchange
`CSD_LEN = 18` bytes (16 CSD + 2 CRC) staged in `buff`. -/
def csd_step (pipe : Pipe) (s : St) : St × Option (List Nat) :=
  bindR (send_command pipe s 73 0 1) fun s1 _ =>
    bindR (wait_for_response pipe s1) fun s2 tok =>
      if tok ≠ 0xFE then (s2, none)
      else
        bindR (spi_wr_buff pipe s2 (List.replicate 18 0xFF)) fun s3 csd =>
          (s3, some csd)

/-- `c_size` as sd.c computes it from the CSD bytes in `buff`:
`((buff[7] & ((1u<<5)-1)) << 16) | (buff[8] << 8) | buff[9]` — note the 5-bit
mask 0x1F.  The `% 256` render the `uint8_t` loads. -/
def c_size_code (csd : List Nat) : Nat :=
  (((csd.getD 7 0 % 256) &&& 0x1F) <<< 16) ||| ((csd.getD 8 0 % 256) <<< 8)
    ||| (csd.getD 9 0 % 256)

/-- `memory_size = (c_size + 1) * (DATA_BLOCK_LEN << 10)`, with
`512 << 10 = 524288`. -/
def memory_size_code (csd : List Nat) : Nat := (c_size_code csd + 1) * 524288

/-- The capacity formula in the spec's words (V2.0 CSD layout): `c_size`
masks `csd[7]` with 0x3F (the field is 22 bits wide).  Kept for comparison
with `c_size_code`. -/
def c_size_spec (csd : List Nat) : Nat :=
  (((csd.getD 7 0 % 256) &&& 0x3F) <<< 16) ||| ((csd.getD 8 0 % 256) <<< 8)
    ||| (csd.getD 9 0 % 256)

/-- Spec-side capacity: `(c_size + 1) × 512 × 1024`. -/
def memory_size_spec (csd : List Nat) : Nat := (c_size_spec csd + 1) * 524288

/-- The zeroed descriptor `sd_init` starts from (`calloc`), holding the given
SPI reference. -/
def init_st (spi_id : Nat) : St :=
  { desc := { spi_id := spi_id, memory_size := 0, buff := List.replicate 18 0 },
    pos := 0, tx := [] }

/-- `sd_init`: 10 warm-up idle bytes; CMD0 with up to 5 retries expecting R1
idle; CMD8 with argument 0x1AA expecting R1 idle and echo bytes 0x01, 0xAA;
the ACMD41 loop; CMD58 (122) requiring R1 ready and the CCS bit
(`response[1] & 0x40`); the CSD step; finally the capacity computation. -/
def sd_init (pipe : Pipe) (spi_id : Nat) (fuel41 : Nat) : St × Option Unit :=
  bindR (spi_wr_buff pipe (init_st spi_id) (List.replicate 10 0xFF)) fun s1 _ =>
    bindR (cmd0_loop pipe 5 s1) fun s2 _ =>
      bindR (send_command pipe s2 72 0x1AA 5) fun s3 r8 =>
        if ¬(r8.getD 0 0 = 0x01 ∧ r8.getD 3 0 = 0x01 ∧ r8.getD 4 0 = 0xAA) then
          (s3, none)
        else
          bindR (acmd41_loop pipe fuel41 0x40000000 s3) fun s4 _ =>
            bindR (send_command pipe s4 122 0 5) fun s5 r58 =>
              if ¬(r58.getD 0 0 = 0 ∧ r58.getD 1 0 &&& 0x40 ≠ 0) then (s5, none)
              else
                bindR (csd_step pipe s5) fun s6 csd =>
                  ({ s6 with desc :=
                      { s6.desc with memory_size := memory_size_code csd } },
                   some ())

/-! Concrete pipes and states used by the closed theorems below. -/

/-- A state whose card holds 1024 bytes (two blocks); scratch buffer zeroed. -/
def st1024 : St :=
  { desc := { spi_id := 0, memory_size := 1024, buff := List.replicate 18 0 },
    pos := 0, tx := [] }

/-- A pipe that always answers 0x00 (ready R1, and data bytes of 0). -/
def pipe00 : Pipe := fun _ => some 0x00

/-- A pipe that always answers 0x05 (a non-ready R1). -/
def pipe05 : Pipe := fun _ => some 0x05

/-- A pipe that always answers 0x01. -/
def pipe01 : Pipe := fun _ => some 0x01

/-- A pipe scripted for a full successful `sd_init` run in which the R1
response to CMD9 (wire position 71) is 0x04 — not the ready state — yet the
start token 0xFE follows and the init completes. -/
def pipeC5 : Pipe := fun i =>
  some (if i = 18 then 0x01 else if i = 27 then 0x01 else if i = 30 then 0x01
    else if i = 31 then 0xAA else if i = 40 then 0x01 else if i = 59 then 0x40
    else if i = 71 then 0x04 else if i = 72 then 0xFE else 0x00)

/-- A pipe scripted for a successful `sd_init` whose CSD has byte 7 equal to
0x20 (bit 5 set) and bytes 8, 9 zero: the 22-bit `c_size` field holds
0x200000 there, but the code's 5-bit mask drops it to 0. -/
def pipeC7 : Pipe := fun i =>
  some (if i = 18 then 0x01 else if i = 27 then 0x01 else if i = 30 then 0x01
    else if i = 31 then 0xAA else if i = 40 then 0x01 else if i = 59 then 0x40
    else if i = 72 then 0xFE else if i = 80 then 0x20 else 0x00)

/-- A pipe for a preliminary read of block 0 from `st1024` that fails at the
CRC stage: ready R1 at position 8, the start token 0xFE at position 9, the 512
data bytes 0x22 at positions 10..521, then a transport error on the two CRC
positions 522 and 523 — so the read fails after the block data has already
landed in the scratch. -/
def pipeC9 : Pipe := fun i =>
  if i = 522 ∨ i = 523 then none
  else some (if i = 8 then 0x00 else if i = 9 then 0xFE else if i ≤ 7 then 0x00
    else 0x22)

/-- A pipe for a lone `csd_step` run from `st1024`: R1 at position 8 is 0x04,
the start token at position 9, then CSD bytes 0x33. -/
def pipeW5 : Pipe := fun i =>
  some (if i = 8 then 0x04 else if i = 9 then 0xFE else if i ≤ 7 then 0x00
    else 0x33)

/-! Infrastructure lemmas: every operation only appends to the transcript and
leaves the descriptor's pipe reference and capacity untouched. -/

/-- The driver's wire operations never rewrite history: the pipe reference and
the capacity are preserved and the transcript only grows. -/
def Ext (s s1 : St) : Prop :=
  s1.desc.spi_id = s.desc.spi_id ∧ s1.desc.memory_size = s.desc.memory_size ∧
    ∃ d, s1.tx = s.tx ++ d

theorem ext_refl (s : St) : Ext s s := ⟨rfl, rfl, [], by simp⟩

theorem ext_trans {s t u : St} (h1 : Ext s t) (h2 : Ext t u) : Ext s u := by
  obtain ⟨a1, a2, d1, hd1⟩ := h1
  obtain ⟨b1, b2, d2, hd2⟩ := h2
  exact ⟨b1.trans a1, b2.trans a2, d1 ++ d2, by rw [hd2, hd1, List.append_assoc]⟩

theorem ext_tx {s s1 : St} (h : Ext s s1) : ∃ d, s1.tx = s.tx ++ d := h.2.2

theorem bindR_none {α β : Type} {p : St × Option α} {k : St → α → St × Option β}
    (h : p.2 = none) : bindR p k = (p.1, none) := by
  rcases p with ⟨s1, r⟩
  cases r
  · rfl
  · simp at h

theorem bindR_some {α β : Type} {p : St × Option α} {k : St → α → St × Option β}
    {x : α} (h : p.2 = some x) : bindR p k = k p.1 x := by
  rcases p with ⟨s1, r⟩
  cases r
  · simp at h
  · simp only [Option.some.injEq] at h
    subst h
    rfl

theorem ext_bindR {α β : Type} {s : St} {p : St × Option α}
    {k : St → α → St × Option β}
    (hp : Ext s p.1) (hk : ∀ s1 x, Ext s1 (k s1 x).1) : Ext s (bindR p k).1 := by
  rcases p with ⟨s1, r⟩
  cases r with
  | none => simpa using hp
  | some x => exact ext_trans (by simpa using hp) (hk s1 x)

theorem ext_ite {α : Type} {s : St} {c : Prop} [Decidable c] {x y : St × α}
    (hx : Ext s x.1) (hy : Ext s y.1) : Ext s (if c then x else y).1 := by
  by_cases h : c
  · rwa [if_pos h]
  · rwa [if_neg h]

theorem spi_wr_fst (pipe : Pipe) (s : St) (out : List Nat) :
    (spi_wr pipe s out).1
      = { s with pos := s.pos + out.length, tx := s.tx ++ [out] } := by
  unfold spi_wr
  split <;> rfl

theorem spi_wr_fst_tx (pipe : Pipe) (s : St) (out : List Nat) :
    (spi_wr pipe s out).1.tx = s.tx ++ [out] := by
  rw [spi_wr_fst]

theorem ext_spi_wr (pipe : Pipe) (s : St) (out : List Nat) :
    Ext s (spi_wr pipe s out).1 := by
  rw [spi_wr_fst]
  exact ⟨rfl, rfl, [out], rfl⟩

theorem ext_set_buff (s : St) (p : List Nat) : Ext s (set_buff s p) :=
  ⟨rfl, rfl, [], by simp [set_buff]⟩

theorem ext_spi_wr_buff (pipe : Pipe) (s : St) (out : List Nat) :
    Ext s (spi_wr_buff pipe s out).1 := by
  unfold spi_wr_buff
  exact ext_bindR
    (ext_trans (ext_set_buff s out) (ext_spi_wr pipe (set_buff s out) out))
    fun s1 rx => ext_set_buff s1 rx

theorem spi_wr_buff_fst_tx (pipe : Pipe) (s : St) (out : List Nat) :
    (spi_wr_buff pipe s out).1.tx = s.tx ++ [out] := by
  unfold spi_wr_buff
  rcases h : spi_wr pipe (set_buff s out) out with ⟨s1, r⟩
  have h1 : s1.tx = s.tx ++ [out] := by
    have := spi_wr_fst_tx pipe (set_buff s out) out
    rw [h] at this
    simpa [set_buff] using this
  cases r
  · simpa [bindR] using h1
  · simpa [bindR, set_buff] using h1

theorem ext_waitRespGo (pipe : Pipe) : ∀ t s, Ext s (waitRespGo pipe t s).1 := by
  intro t
  induction t with
  | zero =>
    intro s
    simpa [waitRespGo] using ext_spi_wr pipe s [0xFF]
  | succ t ih =>
    intro s
    simp only [waitRespGo]
    exact ext_bindR (ext_spi_wr pipe s [0xFF])
      fun s1 rx => ext_ite (ih s1) (ext_refl s1)

theorem ext_wait_for_response (pipe : Pipe) (s : St) :
    Ext s (wait_for_response pipe s).1 :=
  ext_waitRespGo pipe WAIT_RESP_TIMEOUT s

theorem ext_waitBusyGo (pipe : Pipe) : ∀ t s, Ext s (waitBusyGo pipe t s).1 := by
  intro t
  induction t with
  | zero =>
    intro s
    simpa [waitBusyGo] using ext_spi_wr pipe s [0xFF]
  | succ t ih =>
    intro s
    simp only [waitBusyGo]
    exact ext_bindR (ext_spi_wr pipe s [0xFF])
      fun s1 rx => ext_ite (ih s1) (ext_refl s1)

theorem ext_wait_until_not_busy (pipe : Pipe) (s : St) :
    Ext s (wait_until_not_busy pipe s).1 :=
  ext_waitBusyGo pipe WAIT_RESP_TIMEOUT s

theorem ext_send_command_core (pipe : Pipe) (s : St) (cmd arg rlen : Nat) :
    Ext s (send_command_core pipe s cmd arg rlen).1 := by
  unfold send_command_core
  refine ext_bindR (ext_spi_wr_buff pipe s (mk_frame cmd arg)) fun s1 x => ?_
  refine ext_bindR (ext_wait_for_response pipe s1) fun s2 r0 => ?_
  refine ext_ite ?_ (ext_refl s2)
  exact ext_bindR (ext_spi_wr pipe s2 (List.replicate (rlen - 1) 0xFF))
    fun s3 rest => ext_refl s3

theorem ext_send_command (pipe : Pipe) (s : St) (cmd arg rlen : Nat) :
    Ext s (send_command pipe s cmd arg rlen).1 := by
  unfold send_command
  refine ext_ite ?_ (ext_send_command_core pipe s cmd arg rlen)
  refine ext_bindR (ext_send_command_core pipe s 119 0 1) fun s1 r55 => ?_
  exact ext_ite (ext_send_command_core pipe s1 cmd arg rlen) (ext_refl s1)

theorem ext_read_block (pipe : Pipe) (s : St) : Ext s (read_block pipe s).1 := by
  unfold read_block
  refine ext_bindR (ext_wait_for_response pipe s) fun s1 tok => ?_
  refine ext_ite (ext_refl s1) (ext_ite (ext_refl s1) ?_)
  refine ext_bindR (ext_spi_wr pipe s1 (List.replicate 512 0xFF)) fun s2 blk => ?_
  exact ext_bindR (ext_spi_wr_buff pipe s2 [0xFF, 0xFF]) fun s3 x => ext_refl s3

theorem ext_write_block (pipe : Pipe) (s : St) (data : List Nat) (nb : Nat) :
    Ext s (write_block pipe s data nb).1 := by
  unfold write_block
  refine ext_bindR (ext_spi_wr_buff pipe s [if nb = 1 then 0xFE else 0xFC])
    fun s1 x1 => ?_
  refine ext_bindR (ext_spi_wr pipe s1 data) fun s2 x2 => ?_
  refine ext_bindR (ext_spi_wr_buff pipe s2 [0xFF, 0xFF]) fun s3 x3 => ?_
  refine ext_bindR (ext_wait_for_response pipe s3) fun s4 resp => ?_
  refine ext_ite ?_ (ext_refl s4)
  exact ext_bindR (ext_wait_until_not_busy pipe s4) fun s5 x5 => ext_refl s5

theorem ext_rmb_go (pipe : Pipe) (a l nb : Nat) :
    ∀ r i acc s, Ext s (rmb_go pipe a l nb i r acc s).1 := by
  intro r
  induction r with
  | zero => intro i acc s; simpa [rmb_go] using ext_refl s
  | succ r ih =>
    intro i acc s
    simp only [rmb_go]
    exact ext_bindR (ext_read_block pipe s)
      fun s1 blk => ext_ite (ih _ _ s1) (ih _ _ s1)

theorem ext_wmb_go (pipe : Pipe) (a l nb : Nat) (data fb lb : List Nat) :
    ∀ r i didx s, Ext s (wmb_go pipe a l nb data fb lb i r didx s).1 := by
  intro r
  induction r with
  | zero => intro i didx s; simpa [wmb_go] using ext_refl s
  | succ r ih =>
    intro i didx s
    simp only [wmb_go]
    refine ext_ite ?_ (ext_ite ?_ ?_)
    · exact ext_bindR (ext_write_block pipe s (slice data didx 512) nb)
        fun s1 x => ih _ _ s1
    · exact ext_bindR (ext_write_block pipe s
        (splice fb (bfi a i) (slice data didx (bcl a l nb i))) nb)
        fun s1 x => ih _ _ s1
    · exact ext_bindR (ext_write_block pipe s
        (splice lb 0 (slice data didx (bcl a l nb i))) nb)
        fun s1 x => ih _ _ s1

theorem ext_read_multiple_blocks (pipe : Pipe) (s : St) (a l : Nat) :
    Ext s (read_multiple_blocks pipe s a l).1 :=
  ext_rmb_go pipe a l (get_nb_of_blocks a l) (get_nb_of_blocks a l) 0 [] s

theorem ext_write_multiple_blocks (pipe : Pipe) (s : St) (data : List Nat)
    (a l : Nat) (fb lb : List Nat) :
    Ext s (write_multiple_blocks pipe s data a l fb lb).1 :=
  ext_wmb_go pipe a l (get_nb_of_blocks a l) data fb lb (get_nb_of_blocks a l) 0 0 s

theorem ext_sd_read (pipe : Pipe) (s : St) (v : Bool) (a l : Nat) :
    Ext s (sd_read pipe s v a l).1 := by
  unfold sd_read
  refine ext_ite (ext_refl s) ?_
  refine ext_bindR (ext_send_command pipe s _ _ _) fun s1 resp => ?_
  refine ext_ite (ext_refl s1) ?_
  refine ext_bindR (ext_read_multiple_blocks pipe s1 a l) fun s2 dat => ?_
  refine ext_ite ?_ (ext_refl s2)
  refine ext_bindR (ext_send_command pipe s2 76 0 1) fun s3 r12 => ?_
  exact ext_ite (ext_refl s3) (ext_refl s3)

theorem ext_sd_write_pre1 (pipe : Pipe) (s : St) (a l : Nat) (fb0 : List Nat) :
    Ext s (sd_write_pre1 pipe s a l fb0).1 := by
  unfold sd_write_pre1
  exact ext_ite (ext_sd_read pipe s true (head_base a) 512) (ext_refl s)

theorem ext_sd_write_pre2 (pipe : Pipe) (s1 : St) (a l : Nat) (lb0 : List Nat) :
    Ext s1 (sd_write_pre2 pipe s1 a l lb0).1 := by
  unfold sd_write_pre2
  exact ext_ite (ext_sd_read pipe s1 true (tail_base a l) 512) (ext_refl s1)

theorem ext_sd_write_pre (pipe : Pipe) (s : St) (a l : Nat) (fb0 lb0 : List Nat) :
    Ext s (sd_write_pre pipe s a l fb0 lb0).1 :=
  ext_trans (ext_sd_write_pre1 pipe s a l fb0)
    (ext_sd_write_pre2 pipe (sd_write_pre1 pipe s a l fb0).1 a l lb0)

theorem ext_sd_write (pipe : Pipe) (s : St) (v : Bool) (data : List Nat)
    (a l : Nat) (fb0 lb0 : List Nat) :
    Ext s (sd_write pipe s v data a l fb0 lb0).1 := by
  unfold sd_write
  refine ext_ite (ext_refl s) ?_
  refine ext_bindR
    (ext_trans (ext_sd_write_pre pipe s a l fb0 lb0)
      (ext_send_command pipe (sd_write_pre pipe s a l fb0 lb0).1 _ _ _))
    fun s3 resp => ?_
  refine ext_ite (ext_refl s3) ?_
  refine ext_bindR (ext_write_multiple_blocks pipe s3 data a l _ _) fun s4 x => ?_
  refine ext_ite ?_ (ext_refl s4)
  refine ext_bindR (ext_spi_wr_buff pipe s4 [0xFD, 0xFF]) fun s5 x5 => ?_
  exact ext_bindR (ext_wait_until_not_busy pipe s5) fun s6 x6 => ext_refl s6

/-! Arithmetic facts about the wrap-around operations. -/

theorem sub64_eq {x y : Nat} (hx : x < 2 ^ 64) (hy : y ≤ x) : sub64 x y = x - y := by
  unfold sub64
  rw [Nat.mod_eq_of_lt hx, Nat.mod_eq_of_lt (Nat.lt_of_le_of_lt hy hx), if_pos hy]

theorem nb_eq (a l : Nat) (hl : 0 < l) (hb : a + l ≤ 2 ^ 40) :
    get_nb_of_blocks a l = (a + l - 1) / 512 - a / 512 + 1 := by
  have h1 : sub64 (a + l) 1 = a + l - 1 := sub64_eq (by omega) (by omega)
  unfold get_nb_of_blocks
  rw [h1, Nat.shiftRight_eq_div_pow, Nat.shiftRight_eq_div_pow,
    Nat.mod_eq_of_lt (show a < 2 ^ 64 by omega)]
  have hq1 : (a + l - 1) / 2 ^ 9 ≤ 2 ^ 40 / 2 ^ 9 := Nat.div_le_div_right (by omega)
  have hq0 : a / 2 ^ 9 ≤ (a + l - 1) / 2 ^ 9 := Nat.div_le_div_right (by omega)
  rw [sub64_eq (by omega) hq0]
  rw [Nat.mod_eq_of_lt (by omega), Nat.mod_eq_of_lt (by norm_num at hq1 ⊢; omega)]
  norm_num

theorem nb_block_aligned (b : Nat) (hb : b % 512 = 0) (hbnd : b + 512 ≤ 2 ^ 40) :
    get_nb_of_blocks b 512 = 1 := by
  rw [nb_eq b 512 (by omega) hbnd]
  omega

theorem shift9_small {a : Nat} (ha : a ≤ 2 ^ 40) : (a >>> 9) % 2 ^ 32 = a >>> 9 := by
  rw [Nat.shiftRight_eq_div_pow]
  have : a / 2 ^ 9 ≤ 2 ^ 40 / 2 ^ 9 := Nat.div_le_div_right ha
  norm_num at this ⊢
  omega

/-! The two polling loops: on success the returned byte is the awaited one,
and the number of exchanges is bounded by the timeout counter plus one. -/

theorem waitRespGo_some_ne (pipe : Pipe) :
    ∀ t s b, (waitRespGo pipe t s).2 = some b → b ≠ 0xFF := by
  intro t
  induction t with
  | zero => intro s b h; simp [waitRespGo] at h
  | succ t ih =>
    intro s b h
    rw [waitRespGo] at h
    rcases h1 : spi_wr pipe s [0xFF] with ⟨s1, r⟩
    rw [h1] at h
    cases r with
    | none => simp [bindR] at h
    | some rx =>
      rw [bindR_some (p := (s1, some rx)) rfl] at h
      by_cases hb : rx.getD 0 0 = 0xFF
      · rw [if_pos hb] at h
        exact ih s1 b h
      · rw [if_neg hb] at h
        simp only [Option.some.injEq] at h
        omega

theorem waitBusyGo_some_ne (pipe : Pipe) :
    ∀ t s b, (waitBusyGo pipe t s).2 = some b → b ≠ 0x00 := by
  intro t
  induction t with
  | zero => intro s b h; simp [waitBusyGo] at h
  | succ t ih =>
    intro s b h
    rw [waitBusyGo] at h
    rcases h1 : spi_wr pipe s [0xFF] with ⟨s1, r⟩
    rw [h1] at h
    cases r with
    | none => simp [bindR] at h
    | some rx =>
      rw [bindR_some (p := (s1, some rx)) rfl] at h
      by_cases hb : rx.getD 0 0 = 0x00
      · rw [if_pos hb] at h
        exact ih s1 b h
      · rw [if_neg hb] at h
        simp only [Option.some.injEq] at h
        omega

theorem waitRespGo_tx_len (pipe : Pipe) :
    ∀ t s, (waitRespGo pipe t s).1.tx.length ≤ s.tx.length + (t + 1) := by
  intro t
  induction t with
  | zero =>
    intro s
    simp [waitRespGo, spi_wr_fst_tx]
  | succ t ih =>
    intro s
    rw [waitRespGo]
    rcases h1 : spi_wr pipe s [0xFF] with ⟨s1, r⟩
    have hs1 : s1.tx.length = s.tx.length + 1 := by
      have := spi_wr_fst_tx pipe s [0xFF]
      rw [h1] at this
      simp only at this
      simp [this]
    cases r with
    | none => simp [bindR]; omega
    | some rx =>
      rw [bindR_some (p := (s1, some rx)) rfl]
      by_cases hb : rx.getD 0 0 = 0xFF
      · simp only [if_pos hb]
        have := ih s1
        omega
      · simp only [if_neg hb]
        omega

theorem waitBusyGo_tx_len (pipe : Pipe) :
    ∀ t s, (waitBusyGo pipe t s).1.tx.length ≤ s.tx.length + (t + 1) := by
  intro t
  induction t with
  | zero =>
    intro s
    simp [waitBusyGo, spi_wr_fst_tx]
  | succ t ih =>
    intro s
    rw [waitBusyGo]
    rcases h1 : spi_wr pipe s [0xFF] with ⟨s1, r⟩
    have hs1 : s1.tx.length = s.tx.length + 1 := by
      have := spi_wr_fst_tx pipe s [0xFF]
      rw [h1] at this
      simp only at this
      simp [this]
    cases r with
    | none => simp [bindR]; omega
    | some rx =>
      rw [bindR_some (p := (s1, some rx)) rfl]
      by_cases hb : rx.getD 0 0 = 0x00
      · simp only [if_pos hb]
        have := ih s1
        omega
      · simp only [if_neg hb]
        omega

/-! Trace structure: the first wire activity of a command is its 8-byte
staged buffer. -/

theorem bindR_tx2 {α β : Type} (p : St × Option α) (k : St → α → St × Option β)
    (s : St) (fr : List Nat) (r0 : List (List Nat))
    (hp : p.1.tx = s.tx ++ fr :: r0)
    (hk : ∀ s1 x, ∃ d, (k s1 x).1.tx = s1.tx ++ d) :
    ∃ rest, (bindR p k).1.tx = s.tx ++ fr :: rest := by
  rcases p with ⟨s1, r⟩
  cases r with
  | none => exact ⟨r0, by simpa [bindR] using hp⟩
  | some x =>
    obtain ⟨d, hd⟩ := hk s1 x
    refine ⟨r0 ++ d, ?_⟩
    simp only at hp
    simp [bindR, hd, hp]

theorem send_command_core_tx (pipe : Pipe) (s : St) (cmd arg rlen : Nat) :
    ∃ rest, (send_command_core pipe s cmd arg rlen).1.tx
      = s.tx ++ mk_frame cmd arg :: rest := by
  unfold send_command_core
  refine bindR_tx2 _ _ s (mk_frame cmd arg) [] ?_ ?_
  · simpa using spi_wr_buff_fst_tx pipe s (mk_frame cmd arg)
  · intro s1 x
    exact ext_tx (ext_bindR (ext_wait_for_response pipe s1) fun s2 r0 =>
      ext_ite (ext_bindR (ext_spi_wr pipe s2 (List.replicate (rlen - 1) 0xFF))
        fun s3 rest => ext_refl s3) (ext_refl s2))

theorem send_command_tx (pipe : Pipe) (s : St) (cmd arg rlen : Nat)
    (h : cmd &&& 0x80 = 0) :
    ∃ rest, (send_command pipe s cmd arg rlen).1.tx
      = s.tx ++ mk_frame cmd arg :: rest := by
  unfold send_command
  rw [if_neg (not_ne_iff.mpr h)]
  exact send_command_core_tx pipe s cmd arg rlen

/-! Pre-flight checks. -/

theorem checks_pass {ms a l : Nat} (hb : a + l ≤ ms) (hms : ms ≤ 2 ^ 40) :
    sd_checks_fail true ms a l = false := by
  unfold sd_checks_fail
  have h64 : (a + l) % 2 ^ 64 = a + l := Nat.mod_eq_of_lt (by omega)
  simp only [h64, Bool.not_true, Bool.false_or, Bool.or_eq_false_iff,
    decide_eq_false_iff_not]
  omega

theorem checks_fire {v : Bool} {ms a l : Nat} (ha : a < 2 ^ 64) (_hl : l < 2 ^ 64)
    (hms : ms ≤ 2 ^ 40) (h : v = false ∨ ms < a + l) :
    sd_checks_fail v ms a l = true := by
  unfold sd_checks_fail
  rcases h with h | h
  · subst h; rfl
  · by_cases h1 : ms < a
    · simp [h1]
    · by_cases h2 : ms < l
      · simp [h2]
      · have h64 : (a + l) % 2 ^ 64 = a + l := Nat.mod_eq_of_lt (by omega)
        simp [h64, h1, h2]
        omega

theorem sd_read_of_checks (pipe : Pipe) (s : St) (v : Bool) (a l : Nat)
    (h : sd_checks_fail v s.desc.memory_size a l = true) :
    sd_read pipe s v a l = (s, none) := by
  unfold sd_read
  rw [if_pos h]

theorem sd_write_of_checks (pipe : Pipe) (s : St) (v : Bool) (data : List Nat)
    (a l : Nat) (fb0 lb0 : List Nat)
    (h : sd_checks_fail v s.desc.memory_size a l = true) :
    sd_write pipe s v data a l fb0 lb0 = (s, none) := by
  unfold sd_write
  rw [if_pos h]

theorem sd_read_tx (pipe : Pipe) (s : St) (a l : Nat)
    (hpass : sd_checks_fail true s.desc.memory_size a l = false) :
    ∃ rest, (sd_read pipe s true a l).1.tx
      = s.tx ++ mk_frame (if get_nb_of_blocks a l = 1 then 81 else 82)
          ((a >>> 9) % 2 ^ 32) :: rest := by
  unfold sd_read
  rw [if_neg (by simp [hpass])]
  obtain ⟨r0, hr0⟩ := send_command_tx pipe s
    (if get_nb_of_blocks a l = 1 then 81 else 82) ((a >>> 9) % 2 ^ 32) 1
    (by split <;> decide)
  refine bindR_tx2 _ _ s _ r0 hr0 ?_
  intro s1 resp
  refine ext_tx (ext_ite (ext_refl s1) ?_)
  refine ext_bindR (ext_read_multiple_blocks pipe s1 a l) fun s2 dat => ?_
  refine ext_ite ?_ (ext_refl s2)
  exact ext_bindR (ext_send_command pipe s2 76 0 1) fun s3 r12 =>
    ext_ite (ext_refl s3) (ext_refl s3)

theorem sd_write_tx (pipe : Pipe) (s : St) (data : List Nat) (a l : Nat)
    (fb0 lb0 : List Nat)
    (hpass : sd_checks_fail true s.desc.memory_size a l = false) :
    ∃ rest, (sd_write pipe s true data a l fb0 lb0).1.tx
      = (sd_write_pre pipe s a l fb0 lb0).1.tx
        ++ mk_frame (if get_nb_of_blocks a l = 1 then 88 else 89)
            ((a >>> 9) % 2 ^ 32) :: rest := by
  unfold sd_write
  rw [if_neg (by simp [hpass])]
  obtain ⟨r0, hr0⟩ := send_command_tx pipe (sd_write_pre pipe s a l fb0 lb0).1
    (if get_nb_of_blocks a l = 1 then 88 else 89) ((a >>> 9) % 2 ^ 32) 1
    (by split <;> decide)
  refine bindR_tx2 _ _ _ _ r0 hr0 ?_
  intro s3 resp
  refine ext_tx (ext_ite (ext_refl s3) ?_)
  refine ext_bindR (ext_write_multiple_blocks pipe s3 data a l _ _) fun s4 x => ?_
  refine ext_ite ?_ (ext_refl s4)
  refine ext_bindR (ext_spi_wr_buff pipe s4 [0xFD, 0xFF]) fun s5 x5 => ?_
  exact ext_bindR (ext_wait_until_not_busy pipe s5) fun s6 x6 => ext_refl s6

/-! Facts about the command byte of a frame. -/

theorem frame_cmd_byte : ∀ idx : Nat, idx < 64 →
    ((64 + idx) % 256) &&& 0x7F = 0x40 ||| (idx &&& 0x3F) := by decide

theorem frame_cmd_no_acmd_bit : ∀ idx : Nat, idx < 64 → (64 + idx) &&& 0x80 = 0 := by
  decide

/-! Claim theorems. -/

/-- C8: both polling loops — the command-response wait for the first non-0xFF
byte and the card-busy wait for the first non-0x00 byte — are total for every
pipe behaviour; each either returns the awaited byte (0xFF resp. 0x00 is never
returned as a success) or fails, and either way performs at most
`WAIT_RESP_TIMEOUT + 1 = 2^25` exchanges. -/
theorem C8_bounded_polls (pipe : Pipe) (s : St) :
    (∀ b, (wait_for_response pipe s).2 = some b → b ≠ 0xFF)
  ∧ (wait_for_response pipe s).1.tx.length ≤ s.tx.length + 2 ^ 25
  ∧ (∀ b, (wait_until_not_busy pipe s).2 = some b → b ≠ 0x00)
  ∧ (wait_until_not_busy pipe s).1.tx.length ≤ s.tx.length + 2 ^ 25 := by
  have h25 : WAIT_RESP_TIMEOUT + 1 = 2 ^ 25 := by norm_num [WAIT_RESP_TIMEOUT]
  unfold wait_for_response wait_until_not_busy
  refine ⟨fun b h => waitRespGo_some_ne pipe WAIT_RESP_TIMEOUT s b h, ?_,
    fun b h => waitBusyGo_some_ne pipe WAIT_RESP_TIMEOUT s b h, ?_⟩
  · have := waitRespGo_tx_len pipe WAIT_RESP_TIMEOUT s
    omega
  · have := waitBusyGo_tx_len pipe WAIT_RESP_TIMEOUT s
    omega

/-- C8 witness: on a pipe that answers 0x05 immediately, the response poll
returns 0x05 (which is not 0xFF) within the exchange bound. -/
theorem C8_bounded_polls_witness :
    (0x05 : Nat) ≠ 0xFF
  ∧ (wait_for_response pipe05 st1024).1.tx.length ≤ st1024.tx.length + 2 ^ 25 :=
  ⟨(C8_bounded_polls pipe05 st1024).1 0x05 rfl,
   (C8_bounded_polls pipe05 st1024).2.1⟩

/-- C10: `sd_read` and `sd_write`, whether they succeed or fail, leave the
descriptor's `memory_size` and its SPI reference unchanged; only the scratch
buffer and the wire transcript move. -/
theorem C10_descriptor_frame (pipe : Pipe) (s : St) (v : Bool)
    (data fb0 lb0 : List Nat) (a l : Nat) :
    (sd_read pipe s v a l).1.desc.memory_size = s.desc.memory_size
  ∧ (sd_read pipe s v a l).1.desc.spi_id = s.desc.spi_id
  ∧ (sd_write pipe s v data a l fb0 lb0).1.desc.memory_size = s.desc.memory_size
  ∧ (sd_write pipe s v data a l fb0 lb0).1.desc.spi_id = s.desc.spi_id :=
  ⟨(ext_sd_read pipe s v a l).2.1, (ext_sd_read pipe s v a l).1,
   (ext_sd_write pipe s v data a l fb0 lb0).2.1,
   (ext_sd_write pipe s v data a l fb0 lb0).1⟩

/-- C3: with a capacity that `sd_init` can produce, a null data pointer or a
range with `address + len > memory_size` makes both `sd_read` and `sd_write`
fail with the state — hence the wire — untouched, while every in-range request
passes the pre-flight check. -/
theorem C3_bounds (pipe : Pipe) (s : St) (v : Bool) (data fb0 lb0 : List Nat)
    (a l : Nat) (ha : a < 2 ^ 64) (hl : l < 2 ^ 64)
    (hms : s.desc.memory_size ≤ 2 ^ 40) :
    ((v = false ∨ s.desc.memory_size < a + l) →
      sd_read pipe s v a l = (s, none) ∧
        sd_write pipe s v data a l fb0 lb0 = (s, none))
  ∧ (v = true → a + l ≤ s.desc.memory_size →
      sd_checks_fail v s.desc.memory_size a l = false) := by
  constructor
  · intro h
    have hc := checks_fire ha hl hms h
    exact ⟨sd_read_of_checks pipe s v a l hc,
      sd_write_of_checks pipe s v data a l fb0 lb0 hc⟩
  · intro hv hb
    subst hv
    exact checks_pass hb hms

/-- C3 witness: on a 1024-byte card, reading or writing at address 2048 fails
leaving the state untouched. -/
theorem C3_bounds_witness :
    sd_read pipe00 st1024 true 2048 0 = (st1024, none)
  ∧ sd_write pipe00 st1024 true [] 2048 0 [] [] = (st1024, none) :=
  (C3_bounds pipe00 st1024 true [] [] [] 2048 0 (by norm_num) (by norm_num)
    (by norm_num [st1024])).1 (Or.inr (by norm_num [st1024]))

/-- C1 (counterexample): for CMD0 the first byte the driver puts on the wire
in the command exchange is the idle filler 0xFF — `send_command` transmits
`CMD_LEN = 8` bytes whose frame proper sits at offsets 1..6 — not
`0x40 | (idx & 0x3F)` as the claim states. -/
theorem C1_counterexample :
    (send_command pipe01 st1024 64 0 1).1.tx.getD 0 []
      = [0xFF, 0x40, 0x00, 0x00, 0x00, 0x00, 0x95, 0xFF]
  ∧ ((send_command pipe01 st1024 64 0 1).1.tx.getD 0 []).getD 0 0 = 0xFF
  ∧ ¬((send_command pipe01 st1024 64 0 1).1.tx.getD 0 []).getD 0 0
      = 0x40 ||| (0 &&& 0x3F) := by
  refine ⟨rfl, rfl, ?_⟩
  intro h
  simp only [show (send_command pipe01 st1024 64 0 1).1.tx.getD 0 []
    = [0xFF, 0x40, 0x00, 0x00, 0x00, 0x00, 0x95, 0xFF] from rfl] at h
  revert h
  decide

/-- C1 (amended): every command exchange for a plain command with index
`idx < 64` transmits 8 bytes: a leading 0xFF filler, then the 6-byte frame
`[0x40 | (idx & 0x3F)][arg:4 big-endian][crc]` with crc 0x95 for CMD0, 0x87
for CMD8 and 0xFF filler otherwise, then a trailing 0xFF; the four argument
bytes recompose big-endian to `arg`. -/
theorem C1_amended (pipe : Pipe) (s : St) (idx arg rlen : Nat)
    (hidx : idx < 64) (harg : arg < 2 ^ 32) :
    (∃ rest, (send_command pipe s (64 + idx) arg rlen).1.tx
      = s.tx ++ ([0xFF, 0x40 ||| (idx &&& 0x3F),
          (arg >>> 24) % 256, (arg >>> 16) % 256, (arg >>> 8) % 256, arg % 256,
          (if idx = 0 then 0x95 else if idx = 8 then 0x87 else 0xFF), 0xFF]) :: rest)
  ∧ arg = ((arg >>> 24) % 256) * 2 ^ 24 + ((arg >>> 16) % 256) * 2 ^ 16
      + ((arg >>> 8) % 256) * 2 ^ 8 + arg % 256 := by
  constructor
  · have hm : mk_frame (64 + idx) arg
        = [0xFF, 0x40 ||| (idx &&& 0x3F),
           (arg >>> 24) % 256, (arg >>> 16) % 256, (arg >>> 8) % 256, arg % 256,
           (if idx = 0 then 0x95 else if idx = 8 then 0x87 else 0xFF), 0xFF] := by
      unfold mk_frame
      rw [frame_cmd_byte idx hidx]
      simp only [show (64 + idx = 64) ↔ (idx = 0) from by omega,
        show (64 + idx = 72) ↔ (idx = 8) from by omega]
    obtain ⟨rest, hr⟩ := send_command_tx pipe s (64 + idx) arg rlen
      (frame_cmd_no_acmd_bit idx hidx)
    exact ⟨rest, by rw [hr, hm]⟩
  · rw [Nat.shiftRight_eq_div_pow, Nat.shiftRight_eq_div_pow,
      Nat.shiftRight_eq_div_pow]
    omega

/-- C1 amended witness: CMD17 with argument 3. -/
theorem C1_amended_witness :
    (∃ rest, (send_command pipe01 st1024 (64 + 17) 3 1).1.tx
      = st1024.tx ++ ([0xFF, 0x40 ||| (17 &&& 0x3F),
          (3 >>> 24) % 256, (3 >>> 16) % 256, (3 >>> 8) % 256, 3 % 256,
          (if 17 = 0 then 0x95 else if 17 = 8 then 0x87 else 0xFF), 0xFF]) :: rest)
  ∧ 3 = ((3 >>> 24) % 256) * 2 ^ 24 + ((3 >>> 16) % 256) * 2 ^ 16
      + ((3 >>> 8) % 256) * 2 ^ 8 + 3 % 256 :=
  C1_amended pipe01 st1024 17 3 1 (by norm_num) (by norm_num)

/-- C2 (code bug): `sd_read` with `len == 0` at an in-range block-aligned
address is not a no-op: `get_nb_of_blocks` underflows to 0, a CMD18 frame and
a CMD12 frame are put on the wire (with one response poll each on this pipe),
and the call returns success having transferred nothing. -/
theorem C2_len_zero_issues_commands :
    (sd_read pipe00 st1024 true 512 0).1.tx
      = [mk_frame 82 1, [0xFF], mk_frame 76 0, [0xFF]]
  ∧ (sd_read pipe00 st1024 true 512 0).2 = some []
  ∧ (sd_read pipe00 st1024 true 512 0).1.tx.length = 4 :=
  ⟨rfl, rfl, rfl⟩

/-- C4: for an in-range request with `len > 0` the block count is
`(address + len - 1) / 512 - address / 512 + 1`; `sd_read` opens with CMD17
(81) when it is one and CMD18 (82) otherwise, `sd_write` (after its
preliminary reads) with CMD24 (88) or CMD25 (89), and each carries the block
index `address >> 9` as its argument. -/
theorem C4_block_addressing (pipe : Pipe) (s : St) (data fb0 lb0 : List Nat)
    (a l : Nat) (hl : 0 < l) (hb : a + l ≤ s.desc.memory_size)
    (hms : s.desc.memory_size ≤ 2 ^ 40) :
    get_nb_of_blocks a l = (a + l - 1) / 512 - a / 512 + 1
  ∧ (∃ rest, (sd_read pipe s true a l).1.tx
      = s.tx ++ mk_frame (if get_nb_of_blocks a l = 1 then 81 else 82)
          (a >>> 9) :: rest)
  ∧ (∃ rest, (sd_write pipe s true data a l fb0 lb0).1.tx
      = (sd_write_pre pipe s a l fb0 lb0).1.tx
        ++ mk_frame (if get_nb_of_blocks a l = 1 then 88 else 89)
            (a >>> 9) :: rest) := by
  have hpass := checks_pass hb hms
  have hsh : (a >>> 9) % 2 ^ 32 = a >>> 9 := shift9_small (by omega)
  refine ⟨nb_eq a l hl (by omega), ?_, ?_⟩
  · obtain ⟨rest, hr⟩ := sd_read_tx pipe s a l hpass
    rw [hsh] at hr
    exact ⟨rest, hr⟩
  · obtain ⟨rest, hr⟩ := sd_write_tx pipe s data a l fb0 lb0 hpass
    rw [hsh] at hr
    exact ⟨rest, hr⟩

/-- C4 witness: a one-byte read/write at address 0 of a 1024-byte card. -/
theorem C4_block_addressing_witness :
    get_nb_of_blocks 0 1 = (0 + 1 - 1) / 512 - 0 / 512 + 1
  ∧ (∃ rest, (sd_read pipe00 st1024 true 0 1).1.tx
      = st1024.tx ++ mk_frame (if get_nb_of_blocks 0 1 = 1 then 81 else 82)
          (0 >>> 9) :: rest)
  ∧ (∃ rest, (sd_write pipe00 st1024 true [] 0 1 [] []).1.tx
      = (sd_write_pre pipe00 st1024 0 1 [] []).1.tx
        ++ mk_frame (if get_nb_of_blocks 0 1 = 1 then 88 else 89)
            (0 >>> 9) :: rest) :=
  C4_block_addressing pipe00 st1024 [] [] [] 0 1 (by norm_num)
    (by norm_num [st1024]) (by norm_num [st1024])

/-! The read-modify-write preliminary-read conditions, in the spec's terms. -/

theorem head_read_needed_iff (a l : Nat) :
    head_read_needed a l = true ↔ (a % 512 ≠ 0 ∨ ¬(a % 512 = 0 ∧ 512 ≤ l)) := by
  unfold head_read_needed
  simp only [Bool.or_eq_true, Bool.and_eq_true, decide_eq_true_eq]
  omega

theorem tail_read_needed_iff (a l : Nat) (hl : 0 < l) (hb : a + l ≤ 2 ^ 40) :
    tail_read_needed a l = true
      ↔ ((a + l - 1) / 512 ≠ a / 512 ∧ (a + l - 1) % 512 ≠ 511) := by
  unfold tail_read_needed tail_base head_base
  rw [sub64_eq (by omega) (by omega)]
  simp only [Bool.and_eq_true, decide_eq_true_eq]
  omega

theorem head_read_pass {ms : Nat} (a l : Nat) (hl : 0 < l) (hb : a + l ≤ ms)
    (hms : ms ≤ 2 ^ 40) (h512 : ms % 512 = 0) :
    sd_checks_fail true ms (head_base a) 512 = false := by
  apply checks_pass ?_ hms
  unfold head_base
  omega

theorem tail_read_pass {ms : Nat} (a l : Nat) (hl : 0 < l) (hb : a + l ≤ ms)
    (hms : ms ≤ 2 ^ 40) (h512 : ms % 512 = 0) :
    sd_checks_fail true ms (tail_base a l) 512 = false := by
  apply checks_pass ?_ hms
  unfold tail_base
  rw [sub64_eq (by omega) (by omega)]
  omega

/-- C6: for an in-range write with `len > 0`: the head preliminary read fires
exactly when the address is not block-aligned or the first block is not
written in full; the tail preliminary read exactly when the last block differs
from the first and the write stops short of its end; a firing read opens with
a CMD17 frame addressed at the spanned block, a non-firing one leaves the
state untouched; and the write command frame follows all preliminary-read
traffic. -/
theorem C6_rmw_prereads (pipe : Pipe) (s : St) (data fb0 lb0 : List Nat)
    (a l : Nat) (hl : 0 < l) (hb : a + l ≤ s.desc.memory_size)
    (hms : s.desc.memory_size ≤ 2 ^ 40) (h512 : s.desc.memory_size % 512 = 0) :
    (head_read_needed a l = true ↔ (a % 512 ≠ 0 ∨ ¬(a % 512 = 0 ∧ 512 ≤ l)))
  ∧ (tail_read_needed a l = true
      ↔ ((a + l - 1) / 512 ≠ a / 512 ∧ (a + l - 1) % 512 ≠ 511))
  ∧ (head_read_needed a l = true →
      ∃ r1, (sd_write_pre1 pipe s a l fb0).1.tx
        = s.tx ++ mk_frame 81 (head_base a >>> 9) :: r1)
  ∧ (head_read_needed a l = false → sd_write_pre1 pipe s a l fb0 = (s, fb0))
  ∧ (tail_read_needed a l = true →
      ∃ r2, (sd_write_pre2 pipe (sd_write_pre1 pipe s a l fb0).1 a l lb0).1.tx
        = (sd_write_pre1 pipe s a l fb0).1.tx
          ++ mk_frame 81 (tail_base a l >>> 9) :: r2)
  ∧ (tail_read_needed a l = false →
      sd_write_pre2 pipe (sd_write_pre1 pipe s a l fb0).1 a l lb0
        = ((sd_write_pre1 pipe s a l fb0).1, lb0))
  ∧ (∃ r3, (sd_write pipe s true data a l fb0 lb0).1.tx
      = (sd_write_pre pipe s a l fb0 lb0).1.tx
        ++ mk_frame (if get_nb_of_blocks a l = 1 then 88 else 89)
            (a >>> 9) :: r3) := by
  refine ⟨head_read_needed_iff a l, tail_read_needed_iff a l hl (by omega),
    ?_, ?_, ?_, ?_, ?_⟩
  · intro hc
    unfold sd_write_pre1
    rw [if_pos hc]
    have hpass := head_read_pass a l hl hb hms h512
    obtain ⟨r1, hr1⟩ := sd_read_tx pipe s (head_base a) 512 hpass
    have hnb : get_nb_of_blocks (head_base a) 512 = 1 := by
      apply nb_block_aligned
      · unfold head_base; omega
      · unfold head_base; omega
    rw [hnb] at hr1
    simp only [if_pos rfl] at hr1
    rw [shift9_small (show head_base a ≤ 2 ^ 40 by unfold head_base; omega)] at hr1
    exact ⟨r1, hr1⟩
  · intro hc
    unfold sd_write_pre1
    rw [if_neg (by simp [hc])]
  · intro hc
    unfold sd_write_pre2
    rw [if_pos hc]
    have hm1 : (sd_write_pre1 pipe s a l fb0).1.desc.memory_size
        = s.desc.memory_size := (ext_sd_write_pre1 pipe s a l fb0).2.1
    have hpass : sd_checks_fail true
        (sd_write_pre1 pipe s a l fb0).1.desc.memory_size (tail_base a l) 512
        = false := by
      rw [hm1]
      exact tail_read_pass a l hl hb hms h512
    obtain ⟨r2, hr2⟩ :=
      sd_read_tx pipe (sd_write_pre1 pipe s a l fb0).1 (tail_base a l) 512 hpass
    have hsub : sub64 (a + l) 1 = a + l - 1 := sub64_eq (by omega) (by omega)
    have hnb : get_nb_of_blocks (tail_base a l) 512 = 1 := by
      apply nb_block_aligned
      · unfold tail_base; rw [hsub]; omega
      · unfold tail_base; rw [hsub]; omega
    rw [hnb] at hr2
    simp only [if_pos rfl] at hr2
    rw [shift9_small
      (show tail_base a l ≤ 2 ^ 40 by unfold tail_base; rw [hsub]; omega)] at hr2
    exact ⟨r2, hr2⟩
  · intro hc
    unfold sd_write_pre2
    rw [if_neg (by simp [hc])]
  · have hpass := checks_pass hb hms
    obtain ⟨r3, hr3⟩ := sd_write_tx pipe s data a l fb0 lb0 hpass
    rw [shift9_small (show a ≤ 2 ^ 40 by omega)] at hr3
    exact ⟨r3, hr3⟩

/-- C6 witness: the spec's scenario 4 geometry — write 30 bytes at address
500 of a 1024-byte card; the head read fires and opens with a CMD17 frame for
block 0. -/
theorem C6_rmw_prereads_witness :
    ∃ r1, (sd_write_pre1 pipe00 st1024 500 30 []).1.tx
      = st1024.tx ++ mk_frame 81 (head_base 500 >>> 9) :: r1 :=
  (C6_rmw_prereads pipe00 st1024 [] [] [] 500 30 (by norm_num)
    (by norm_num [st1024]) (by norm_num [st1024]) (by norm_num [st1024])).2.2.1
    (by decide)

/-! The scratch-contents model of the preliminary reads, and the restated
read-modify-write failure claim. -/

theorem bindR_some2 {α β : Type} {s1 : St} {x : α} (k : St → α → St × Option β) :
    bindR (s1, some x) k = k s1 x := rfl

theorem caseR_none2 {α β : Type} {s1 : St} (d : β) (k : St → α → β) :
    caseR (s1, (none : Option α)) d k = d := rfl

theorem caseR_some2 {α β : Type} {s1 : St} {x : α} (d : β) (k : St → α → β) :
    caseR (s1, some x) d k = k s1 x := rfl

/-- On a successful `read_block`, the destination tracked by `read_block_dest`
holds exactly the returned block, whatever it held before. -/
theorem read_block_dest_of_success (pipe : Pipe) (s : St) (prior blk : List Nat)
    (h : (read_block pipe s).2 = some blk) :
    read_block_dest pipe s prior = blk := by
  unfold read_block at h
  unfold read_block_dest
  rcases hw : wait_for_response pipe s with ⟨s1, r1⟩
  rw [hw] at h
  cases r1 with
  | none => simp [bindR] at h
  | some tok =>
    rw [bindR_some2] at h
    rw [caseR_some2]
    by_cases h1 : tok &&& 0xF0 = 0
    · rw [if_pos h1] at h
      simp at h
    · rw [if_neg h1] at h ⊢
      by_cases h2 : tok ≠ 0xFE
      · rw [if_pos h2] at h
        simp at h
      · rw [if_neg h2] at h ⊢
        rcases hs : spi_wr pipe s1 (List.replicate 512 0xFF) with ⟨s2, r2⟩
        rw [hs] at h
        cases r2 with
        | none => simp [bindR] at h
        | some blk0 =>
          rw [bindR_some2] at h
          rw [caseR_some2]
          rcases hc : spi_wr_buff pipe s2 [0xFF, 0xFF] with ⟨s3, r3⟩
          rw [hc] at h
          cases r3 with
          | none => simp [bindR] at h
          | some x =>
            rw [bindR_some2] at h
            simpa using h

/-- On a successful aligned single-block `sd_read` (the shape of every
preliminary read of `sd_write`), the scratch tracked by `preread_dest` holds
exactly the data the read returned. -/
theorem preread_dest_of_success (pipe : Pipe) (s : St) (b : Nat)
    (prior d : List Nat) (hb0 : b % 512 = 0)
    (hbnd : b + 512 ≤ s.desc.memory_size) (hms : s.desc.memory_size ≤ 2 ^ 40)
    (h : (sd_read pipe s true b 512).2 = some d) :
    preread_dest pipe s b prior = d := by
  have hpass : sd_checks_fail true s.desc.memory_size b 512 = false :=
    checks_pass hbnd hms
  have hnb : get_nb_of_blocks b 512 = 1 := nb_block_aligned b hb0 (by omega)
  have hcmd : (if get_nb_of_blocks b 512 = 1 then (81 : Nat) else 82) = 81 := by
    rw [hnb]; decide
  unfold sd_read at h
  rw [if_neg (by simp [hpass]), hcmd] at h
  unfold preread_dest
  rw [if_neg (by simp [hpass]), hcmd]
  rcases hsc : send_command pipe s 81 ((b >>> 9) % 2 ^ 32) 1 with ⟨s1, r1⟩
  rw [hsc] at h
  cases r1 with
  | none => simp [bindR] at h
  | some resp =>
    rw [bindR_some2] at h
    rw [caseR_some2]
    by_cases hr : resp.getD 0 0 ≠ 0
    · rw [if_pos hr] at h
      simp at h
    · rw [if_neg hr] at h ⊢
      unfold read_multiple_blocks at h
      rw [hnb] at h
      have hbfi : bfi b 0 = 0 := by unfold bfi; simpa using hb0
      have hbcl : bcl b 512 1 0 = 512 := by
        unfold bcl
        rw [if_pos rfl, sub64_eq (by omega) (by omega), hbfi]
        omega
      simp only [rmb_go, hbfi, hbcl] at h
      rcases hrb : read_block pipe s1 with ⟨s2, r2⟩
      rw [hrb] at h
      cases r2 with
      | none => simp [bindR] at h
      | some blk =>
        rw [bindR_some2] at h
        rw [if_pos (by simp)] at h
        rw [bindR_some2] at h
        rw [if_neg (by norm_num)] at h
        simp only [Option.some.injEq, List.nil_append] at h
        rw [read_block_dest_of_success pipe s1 prior blk (by rw [hrb])]
        exact h

/-- C9: when the preliminary head-block read of `sd_write` fails, the failure
is discarded: the write command is put on the wire anyway, committing whatever
the scratch `first_block` holds at that point — its original junk when the
read failed before any data transfer (at the command or its R1), or the
received block when the data arrived and the read failed only afterwards
(e.g. at the CRC exchange). -/
theorem C9_pre_read_failure_ignored (pipe : Pipe) (s : St)
    (data fb0 lb0 : List Nat) (a l : Nat)
    (hl : 0 < l) (hb : a + l ≤ s.desc.memory_size)
    (hms : s.desc.memory_size ≤ 2 ^ 40) (h512 : s.desc.memory_size % 512 = 0)
    (hhead : head_read_needed a l = true)
    (_hfail : (sd_read pipe s true (head_base a) 512).2 = none) :
    (∃ rest, (sd_write pipe s true data a l fb0 lb0).1.tx
      = (sd_write_pre pipe s a l fb0 lb0).1.tx
        ++ mk_frame (if get_nb_of_blocks a l = 1 then 88 else 89)
            (a >>> 9) :: rest)
  ∧ ((send_command pipe s 81 ((head_base a >>> 9) % 2 ^ 32) 1).2 = none →
      (sd_write_pre pipe s a l fb0 lb0).2.1 = fb0)
  ∧ (∀ s1 resp s2 blk,
      send_command pipe s 81 ((head_base a >>> 9) % 2 ^ 32) 1 = (s1, some resp) →
      resp.getD 0 0 = 0 →
      wait_for_response pipe s1 = (s2, some 0xFE) →
      (spi_wr pipe s2 (List.replicate 512 0xFF)).2 = some blk →
      (sd_write_pre pipe s a l fb0 lb0).2.1 = blk) := by
  have hpassb : sd_checks_fail true s.desc.memory_size (head_base a) 512 = false :=
    head_read_pass a l hl hb hms h512
  have hnb : get_nb_of_blocks (head_base a) 512 = 1 := by
    apply nb_block_aligned
    · unfold head_base; omega
    · unfold head_base; omega
  have hcmd : (if get_nb_of_blocks (head_base a) 512 = 1 then (81 : Nat) else 82)
      = 81 := by
    rw [hnb]; decide
  have hstep : (sd_write_pre pipe s a l fb0 lb0).2.1
      = preread_dest pipe s (head_base a) fb0 := by
    show (sd_write_pre1 pipe s a l fb0).2 = _
    unfold sd_write_pre1
    rw [if_pos hhead]
  refine ⟨?_, ?_, ?_⟩
  · obtain ⟨rest, hr⟩ := sd_write_tx pipe s data a l fb0 lb0 (checks_pass hb hms)
    rw [shift9_small (show a ≤ 2 ^ 40 by omega)] at hr
    exact ⟨rest, hr⟩
  · intro hsc
    rw [hstep]
    unfold preread_dest
    rw [if_neg (by simp [hpassb]), hcmd]
    rcases hp : send_command pipe s 81 ((head_base a >>> 9) % 2 ^ 32) 1 with ⟨s1, r⟩
    rw [hp] at hsc
    cases r with
    | none => rfl
    | some resp => simp at hsc
  · intro s1 resp s2 blk h1 h2 h3 h4
    rw [hstep]
    unfold preread_dest
    rw [if_neg (by simp [hpassb]), hcmd, h1, caseR_some2,
      if_neg (not_not_intro h2)]
    unfold read_block_dest
    rw [h3, caseR_some2, if_neg (by decide), if_neg (by decide)]
    rcases hs2 : spi_wr pipe s2 (List.replicate 512 0xFF) with ⟨s3, r3⟩
    rw [hs2] at h4
    cases r3 with
    | none => simp at h4
    | some blk0 =>
      rw [caseR_some2]
      simpa using h4

set_option maxRecDepth 8000 in
/-- C9 witness: a one-byte write at address 0 on a pipe that answers the
preliminary read's CMD17 with a ready R1 and a full block of 0x22 bytes but
fails the transport on the CRC exchange: the preliminary read fails, yet the
scratch committed by the write holds the received block, not its junk. -/
theorem C9_pre_read_failure_ignored_witness :
    (sd_write_pre pipeC9 st1024 0 1 (List.replicate 512 7) [9]).2.1
      = List.replicate 512 0x22 := by
  have h := (C9_pre_read_failure_ignored pipeC9 st1024 [] (List.replicate 512 7)
    [9] 0 1 (by norm_num) (by norm_num [st1024]) (by norm_num [st1024])
    (by norm_num [st1024]) (by decide) rfl).2.2
  exact h (send_command pipeC9 st1024 81 ((head_base 0 >>> 9) % 2 ^ 32) 1).1
    [0x00]
    (wait_for_response pipeC9
      (send_command pipeC9 st1024 81 ((head_base 0 >>> 9) % 2 ^ 32) 1).1).1
    (List.replicate 512 0x22) rfl rfl rfl rfl

/-! The CSD step of initialization. -/

/-- C5 (counterexample): a scripted full `sd_init` run in which the R1
response to CMD9 — wire position 71, polled right after the CMD9 frame, which
is the 14th exchange of the run — is 0x04, not the ready state 0x00, and the
initialization nevertheless succeeds: the code never checks CMD9's R1. -/
theorem C5_counterexample :
    (sd_init pipeC5 0 1).2 = some ()
  ∧ (sd_init pipeC5 0 1).1.tx.getD 13 [] = mk_frame 73 0
  ∧ pipeC5 71 = some 0x04
  ∧ ¬((0x04 : Nat) = 0x00) := ⟨rfl, rfl, rfl, by norm_num⟩

/-- C5 (amended): the CSD step sends CMD9 and reads — but does not check —
its R1 response; it then waits for the next non-idle byte and fails when that
byte is not the start token 0xFE; when it is, it exchanges the 18 CSD+CRC
bytes and succeeds, whatever R1 was. -/
theorem C5_csd_step (pipe : Pipe) (s : St) :
    (∃ rest, (csd_step pipe s).1.tx = s.tx ++ mk_frame 73 0 :: rest)
  ∧ (∀ s1 r s2 tok, send_command pipe s 73 0 1 = (s1, some r) →
      wait_for_response pipe s1 = (s2, some tok) → tok ≠ 0xFE →
      csd_step pipe s = (s2, none))
  ∧ (∀ s1 r s2 s3 csd, send_command pipe s 73 0 1 = (s1, some r) →
      wait_for_response pipe s1 = (s2, some 0xFE) →
      spi_wr_buff pipe s2 (List.replicate 18 0xFF) = (s3, some csd) →
      csd_step pipe s = (s3, some csd)) := by
  refine ⟨?_, ?_, ?_⟩
  · unfold csd_step
    obtain ⟨r0, hr0⟩ := send_command_tx pipe s 73 0 1 (by decide)
    refine bindR_tx2 _ _ s _ r0 hr0 ?_
    intro s1 x
    refine ext_tx (ext_bindR (ext_wait_for_response pipe s1) fun s2 tok => ?_)
    refine ext_ite (ext_refl s2) ?_
    exact ext_bindR (ext_spi_wr_buff pipe s2 (List.replicate 18 0xFF))
      fun s3 csd => ext_refl s3
  · intro s1 r s2 tok h1 h2 h3
    unfold csd_step
    rw [h1, bindR_some2, h2, bindR_some2, if_pos h3]
  · intro s1 r s2 s3 csd h1 h2 h3
    unfold csd_step
    rw [h1, bindR_some2, h2, bindR_some2, if_neg (by norm_num), h3, bindR_some2]

/-- C5 amended witness: a lone CSD step on a pipe answering R1 = 0x04, then
the 0xFE token, then CSD bytes 0x33: the step succeeds despite the non-ready
R1. -/
theorem C5_csd_step_witness :
    (csd_step pipeW5 st1024).2 = some (List.replicate 18 0x33) := by
  have h := (C5_csd_step pipeW5 st1024).2.2
    (send_command pipeW5 st1024 73 0 1).1 [0x04]
    (wait_for_response pipeW5 (send_command pipeW5 st1024 73 0 1).1).1
    (spi_wr_buff pipeW5
      (wait_for_response pipeW5 (send_command pipeW5 st1024 73 0 1).1).1
      (List.replicate 18 0xFF)).1
    (List.replicate 18 0x33) rfl rfl rfl
  rw [h]

/-! Capacity bounds. -/

theorem memory_size_code_le (csd : List Nat) : memory_size_code csd ≤ 2 ^ 40 := by
  have h1 : ((csd.getD 7 0 % 256) &&& 0x1F) <<< 16 < 2 ^ 21 := by
    rw [Nat.shiftLeft_eq]
    have := Nat.and_le_right (n := csd.getD 7 0 % 256) (m := 0x1F)
    omega
  have h2 : (csd.getD 8 0 % 256) <<< 8 < 2 ^ 21 := by
    rw [Nat.shiftLeft_eq]
    have : csd.getD 8 0 % 256 < 256 := Nat.mod_lt _ (by norm_num)
    omega
  have h3 : csd.getD 9 0 % 256 < 2 ^ 21 := by
    have : csd.getD 9 0 % 256 < 256 := Nat.mod_lt _ (by norm_num)
    omega
  have h4 : c_size_code csd < 2 ^ 21 := by
    unfold c_size_code
    exact Nat.or_lt_two_pow (Nat.or_lt_two_pow h1 h2) h3
  unfold memory_size_code
  omega

/-- C7 (code bug): on a scripted init whose CSD has byte 7 = 0x20 (bit 5 of
the 22-bit `c_size` field set), the code's 5-bit mask drops that bit:
`memory_size` comes out as 524288 where the spec's 0x3F mask gives
1099512152064.  Independently, the code's capacity is always a nonzero
multiple of 512. -/
theorem C7_csd_mask :
    (sd_init pipeC7 0 1).2 = some ()
  ∧ (sd_init pipeC7 0 1).1.desc.buff.getD 7 0 = 0x20
  ∧ (sd_init pipeC7 0 1).1.desc.memory_size = 524288
  ∧ memory_size_spec ((sd_init pipeC7 0 1).1.desc.buff) = 1099512152064
  ∧ (sd_init pipeC7 0 1).1.desc.memory_size
      < memory_size_spec ((sd_init pipeC7 0 1).1.desc.buff)
  ∧ (∀ csd, memory_size_code csd % 512 = 0 ∧ 0 < memory_size_code csd) := by
  refine ⟨rfl, rfl, rfl, rfl, ?_, ?_⟩
  · rw [show (sd_init pipeC7 0 1).1.desc.memory_size = 524288 from rfl,
      show memory_size_spec ((sd_init pipeC7 0 1).1.desc.buff) = 1099512152064
        from rfl]
    norm_num
  · intro csd
    unfold memory_size_code
    omega

/-! `sd_init` can only produce capacities up to 2^40 bytes (the 5-bit-masked
21-bit `c_size` times 512 KiB), which justifies the capacity hypotheses of the
bounds and addressing theorems above. -/

theorem ext_cmd0_loop (pipe : Pipe) : ∀ n s, Ext s (cmd0_loop pipe n s).1 := by
  intro n
  induction n with
  | zero => intro s; exact ext_refl s
  | succ n ih =>
    intro s
    simp only [cmd0_loop]
    refine ext_bindR (ext_send_command pipe s 64 0 1) fun s1 r => ?_
    refine ext_ite (ext_refl s1) ?_
    cases n with
    | zero => exact ext_refl s1
    | succ m => exact ih s1

theorem ext_acmd41_loop (pipe : Pipe) : ∀ f arg s, Ext s (acmd41_loop pipe f arg s).1 := by
  intro f
  induction f with
  | zero => intro arg s; exact ext_refl s
  | succ f ih =>
    intro arg s
    simp only [acmd41_loop]
    refine ext_bindR (ext_send_command pipe s 233 arg 1) fun s1 r => ?_
    exact ext_ite (ext_refl s1) (ih 0 s1)

theorem ext_csd_step (pipe : Pipe) (s : St) : Ext s (csd_step pipe s).1 := by
  unfold csd_step
  refine ext_bindR (ext_send_command pipe s 73 0 1) fun s1 x => ?_
  refine ext_bindR (ext_wait_for_response pipe s1) fun s2 tok => ?_
  refine ext_ite (ext_refl s2) ?_
  exact ext_bindR (ext_spi_wr_buff pipe s2 (List.replicate 18 0xFF))
    fun s3 csd => ext_refl s3

theorem sd_init_memory_size_le (pipe : Pipe) (id f41 : Nat) :
    (sd_init pipe id f41).1.desc.memory_size ≤ 2 ^ 40 := by
  unfold sd_init
  rcases h1 : spi_wr_buff pipe (init_st id) (List.replicate 10 0xFF) with ⟨s1, r1⟩
  have m1 : s1.desc.memory_size = 0 := by
    have := (ext_spi_wr_buff pipe (init_st id) (List.replicate 10 0xFF)).2.1
    rw [h1] at this
    exact this
  cases r1 with
  | none => simp [bindR, m1]
  | some x1 =>
    rw [bindR_some2]
    rcases h2 : cmd0_loop pipe 5 s1 with ⟨s2, r2⟩
    have m2 : s2.desc.memory_size = 0 := by
      have := (ext_cmd0_loop pipe 5 s1).2.1
      rw [h2] at this
      simp only at this
      omega
    cases r2 with
    | none => simp [bindR, m2]
    | some x2 =>
      rw [bindR_some2]
      rcases h3 : send_command pipe s2 72 0x1AA 5 with ⟨s3, r3⟩
      have m3 : s3.desc.memory_size = 0 := by
        have := (ext_send_command pipe s2 72 0x1AA 5).2.1
        rw [h3] at this
        simp only at this
        omega
      cases r3 with
      | none => simp [bindR, m3]
      | some r8 =>
        rw [bindR_some2]
        refine le_of_eq_of_le (b := (if ¬(r8.getD 0 0 = 0x01 ∧ r8.getD 3 0 = 0x01
          ∧ r8.getD 4 0 = 0xAA) then (s3, (none : Option Unit)) else
            bindR (acmd41_loop pipe f41 0x40000000 s3) fun s4 _ =>
              bindR (send_command pipe s4 122 0 5) fun s5 r58 =>
                if ¬(r58.getD 0 0 = 0 ∧ r58.getD 1 0 &&& 0x40 ≠ 0) then (s5, none)
                else
                  bindR (csd_step pipe s5) fun s6 csd =>
                    ({ s6 with desc :=
                        { s6.desc with memory_size := memory_size_code csd } },
                     some ())).1.desc.memory_size) rfl ?_
        split
        · simp [m3]
        · rcases h4 : acmd41_loop pipe f41 0x40000000 s3 with ⟨s4, r4⟩
          have m4 : s4.desc.memory_size = 0 := by
            have := (ext_acmd41_loop pipe f41 0x40000000 s3).2.1
            rw [h4] at this
            simp only at this
            omega
          cases r4 with
          | none => simp [bindR, m4]
          | some x4 =>
            rw [bindR_some2]
            rcases h5 : send_command pipe s4 122 0 5 with ⟨s5, r58⟩
            have m5 : s5.desc.memory_size = 0 := by
              have := (ext_send_command pipe s4 122 0 5).2.1
              rw [h5] at this
              simp only at this
              omega
            cases r58 with
            | none => simp [bindR, m5]
            | some r58 =>
              rw [bindR_some2]
              split
              · simp [m5]
              · rcases h6 : csd_step pipe s5 with ⟨s6, r6⟩
                have m6 : s6.desc.memory_size = 0 := by
                  have := (ext_csd_step pipe s5).2.1
                  rw [h6] at this
                  simp only at this
                  omega
                cases r6 with
                | none => simp [bindR, m6]
                | some csd =>
                  rw [bindR_some2]
                  simpa using memory_size_code_le csd

end SD
